import Mathlib

/-!
Verification development for the file-retention housekeeping utility
(cleanup engine of src/cleaner.js).

The repository ships two variants of the cleanup module inside
src/cleaner.js, separated by a document marker:
the synchronous variant (lines 1-633) and the asynchronous,
checksum-verifying variant (lines 634-1280).  Both are embedded here
where they differ in behaviour; functions that are textually identical
in the two variants are embedded once.

Modelling conventions (shallow embedding):
- Strings are Lean `String`s; where character-level reasoning is needed
  we work on `String.data` (a `List Char`).
- The file system is a finite association list from paths to byte lists.
  Machine I/O faults (a stat/read/write/hash call throwing) are injected
  through explicit oracle records, so that every exception path of the
  source is reachable in the model.
- `path.join` is modelled as separator concatenation on already
  normalised inputs, which is how every call site of the source uses it.
- JavaScript `String.prototype.toLowerCase` is modelled for the ASCII
  range, which covers every string the source compares (error codes,
  Windows paths, configured names).
- The MD5 digest of the source is modelled as an injective digest
  function (the identity on byte lists): the transfer protocol treats
  digest equality as content equality, which is exactly the
  collision-freeness assumption.
-/

/-- ASCII lowering of one character, the fragment of JavaScript
toLowerCase exercised by the source. -/
def lowerChar (c : Char) : Char :=
  if 'A' ≤ c ∧ c ≤ 'Z' then Char.ofNat (c.toNat + 32) else c

/-- ASCII lowering of a string (model of s.toLowerCase()). -/
def toLowerAscii (s : String) : String :=
  String.mk (s.data.map lowerChar)

/-- Model of path.join(a, b) on normalised inputs: concatenation with a
separator. -/
def pathJoin (a b : String) : String :=
  a ++ "/" ++ b

/-- Index of the last occurrence of a dot in a character list, if any. -/
def lastDotIdx : List Char → Option Nat
  | [] => none
  | c :: cs =>
    match lastDotIdx cs with
    | some j => some (j + 1)
    | none => if c = '.' then some 0 else none

/-- Model of Node path.extname restricted to bare entry names (every
call site of the source passes a readdir entry name, which contains no
separator): the extension runs from the last dot, except that a name
whose only structure is a leading dot (a dotfile) or the name ".." has
no extension. -/
def extnameChars (cs : List Char) : List Char :=
  match lastDotIdx cs with
  | none => []
  | some i => if i = 0 ∨ cs = ['.', '.'] then [] else cs.drop i

/-- Model of path.extname(name) returning the extension with its dot. -/
def jsExtname (name : String) : String :=
  String.mk (extnameChars name.data)

/-- Model of path.extname(fileName).slice(1): the extension without the
dot (empty when there is no extension). -/
def extSlice1 (name : String) : String :=
  String.mk ((extnameChars name.data).drop 1)

/-- Embedding of isAllowedExtension (identical in both variants of
src/cleaner.js): wildcard short-circuit, then case-sensitive membership
of the dotless extension. -/
def isAllowedExtension (allowedExtensions : List String) (fileName : String) : Bool :=
  if allowedExtensions.contains "*" then true
  else allowedExtensions.contains (extSlice1 fileName)

/-- Embedding of isProtectedFile (identical in both variants):
case-insensitive exact match of the file name against the protected
list. -/
def isProtectedFile (protectedFiles : List String) (fileName : String) : Bool :=
  protectedFiles.any (fun p => toLowerAscii fileName == toLowerAscii p)

/-- Embedding of isExpired (identical in both variants).  The stat call
is modelled by an `Option` carrying (birthtimeMs, mtimeMs) with the
JavaScript || 0 defaults already folded in; `none` is the stat call
throwing, which the source catches and converts to `false`.  Note that
the stat happens before the retentionDays == 0 short-circuit, exactly as
in the source. -/
def isExpired (stat : Option (Nat × Nat)) (now : Nat) (retentionDays : Nat) : Bool :=
  match stat with
  | none => false
  | some (birth, mtime) =>
    let fileTimeMs := max birth mtime
    let fileAgeMs : Int := (now : Int) - (fileTimeMs : Int)
    let retentionMs : Int := (retentionDays : Int) * (24 * 60 * 60 * 1000)
    if retentionDays = 0 then true
    else decide (fileAgeMs > retentionMs)

/-- Decimal digit character. -/
def digitChar (n : Nat) : Char :=
  Char.ofNat (48 + n)

/-- Fueled decimal rendering (most significant digit first). -/
def natDigitsAux : Nat → Nat → List Char
  | 0, _ => []
  | fuel + 1, n =>
    if n < 10 then [digitChar n]
    else natDigitsAux fuel (n / 10) ++ [digitChar (n % 10)]

/-- Decimal digits of a natural number, the semantics of a JavaScript
template slot holding a counter. -/
def natDigits (n : Nat) : List Char :=
  natDigitsAux (n + 1) n

/-- Decimal rendering as a string. -/
def natRepr (n : Nat) : String :=
  String.mk (natDigits n)

/-- Value read back from a digit list (used to prove the rendering
injective). -/
def digitsVal (cs : List Char) : Nat :=
  cs.foldl (fun a c => a * 10 + (c.toNat - 48)) 0

/-- Unit suffix used by formatFileSize. -/
def sizeUnit : Nat → String
  | 0 => "B"
  | 1 => "KB"
  | 2 => "MB"
  | 3 => "GB"
  | _ => "TB"

/-- Size-bucket index: the value of
min(floor(log bytes / log 1024), sizes.length - 1) in the source,
written with explicit comparisons so that it evaluates. -/
def sizeIndex (bytes : Nat) : Nat :=
  if bytes < 1024 then 0
  else if bytes < 1024 * 1024 then 1
  else if bytes < 1024 * 1024 * 1024 then 2
  else if bytes < 1024 * 1024 * 1024 * 1024 then 3
  else 4

/-- Rendering of a value scaled by 100, with the trailing zeros dropped
the way parseFloat(x.toFixed(2)) prints. -/
def hundredthsRepr (q : Nat) : String :=
  let whole := q / 100
  let frac := q % 100
  if frac = 0 then natRepr whole
  else if frac % 10 = 0 then natRepr whole ++ "." ++ natRepr (frac / 10)
  else if frac < 10 then natRepr whole ++ ".0" ++ natRepr frac
  else natRepr whole ++ "." ++ natRepr frac

/-- Embedding of formatFileSize (identical in both variants).  The
two-decimal rounding of the source is performed by binary floating
point; it is modelled here by exact half-up rational rounding, which
agrees except on float-ulp corner values that no claim depends on. -/
def formatFileSize (bytes : Nat) : String :=
  if bytes = 0 then "0 B"
  else
    let i := sizeIndex (max bytes 1)
    if i = 0 then natRepr bytes ++ " B"
    else
      let p := 1024 ^ i
      let q := (bytes * 100 + p / 2) / p
      hundredthsRepr q ++ " " ++ sizeUnit i

/-- File-system model: a finite association list from absolute paths to
byte contents. -/
abbrev FS := List (String × List Nat)

/-- Lookup of a path in the file system. -/
def lookupFS (fs : FS) (p : String) : Option (List Nat) :=
  match fs with
  | [] => none
  | (q, c) :: rest => if q = p then some c else lookupFS rest p

/-- Model of fs.existsSync. -/
def existsFS (fs : FS) (p : String) : Bool :=
  (lookupFS fs p).isSome

/-- Model of fs.writeFileSync: replaces any previous content at the
path. -/
def writeFS (fs : FS) (p : String) (c : List Nat) : FS :=
  (p, c) :: fs.filter (fun e => e.1 != p)

/-- Model of fs.removeSync on a file path. -/
def removeFS (fs : FS) (p : String) : FS :=
  fs.filter (fun e => e.1 != p)

/-- Characters after the last separator of a path. -/
def afterLastSlash : List Char → List Char
  | [] => []
  | c :: rest =>
    if rest.contains '/' then afterLastSlash rest
    else if c = '/' then rest
    else c :: rest

/-- Model of path.basename on the slash-separated paths this development
builds. -/
def jsBasename (p : String) : String :=
  String.mk (afterLastSlash p.data)

/-- Base name with the extension stripped: path.basename(fileName, ext)
for ext = path.extname(fileName), on a bare entry name. -/
def baseNameNoExt (fileName : String) : String :=
  match lastDotIdx fileName.data with
  | none => fileName
  | some i =>
    if i = 0 ∨ fileName.data = ['.', '.'] then fileName
    else String.mk (fileName.data.take i)

/-- Collision counter candidate of getUniqueFileName: the string
baseName_counter concatenated with the extension, joined under the
target directory. -/
def suffixedName (baseName ext : String) (counter : Nat) : String :=
  baseName ++ "_" ++ natRepr counter ++ ext

/-- Fueled embedding of the do/while loop of getUniqueFileName; the fuel
given by the caller exceeds the number of existing paths, which is
enough for the loop to find a free candidate. -/
def findFreeSuffix (fs : FS) (targetDir baseName ext : String) : Nat → Nat → String
  | counter, 0 => pathJoin targetDir (suffixedName baseName ext counter)
  | counter, fuel + 1 =>
    let uniquePath := pathJoin targetDir (suffixedName baseName ext counter)
    if existsFS fs uniquePath then findFreeSuffix fs targetDir baseName ext (counter + 1) fuel
    else uniquePath

/-- Embedding of getUniqueFileName (identical in both variants): the
unmodified join when free, otherwise the first free suffixed candidate
counting from 1. -/
def getUniqueFileName (fs : FS) (targetDir fileName : String) : String :=
  let filePath := pathJoin targetDir fileName
  if ¬ existsFS fs filePath then filePath
  else
    findFreeSuffix fs targetDir (baseNameNoExt fileName) (jsExtname fileName) 1 (fs.length + 1)

example : getUniqueFileName [] "q" "report.txt" = "q/report.txt" := by rfl

example : getUniqueFileName [("q/report.txt", [1])] "q" "report.txt" = "q/report_1.txt" := by rfl

example : toLowerAscii "Desktop.INI" = "desktop.ini" := by rfl

example : extSlice1 ".bashrc" = "" := by rfl

example : extSlice1 "a.tar.gz" = "gz" := by rfl

example : formatFileSize 0 = "0 B" := by rfl

example : formatFileSize 1536 = "1.5 KB" := by rfl

example : formatFileSize 2048 = "2 KB" := by rfl

example : formatFileSize 500 = "500 B" := by rfl

/-- Fault-injection oracle for one moveFile call (the asynchronous,
checksum-verifying variant at src/cleaner.js lines 896-1049).  Each
boolean makes the corresponding I/O call of the source throw; `corrupt`
makes the write succeed but deposit the given bytes instead of the
source content (a torn or corrupted copy).  Removal of an existing
entry of the modelled file system itself is infallible. -/
structure Faults where
  statFail : Bool
  readFail : Bool
  hashSrcFail : Bool
  writeFail : Bool
  corrupt : Option (List Nat)
  readTgtFail : Bool
  statTgtFail : Bool
  hashTgtFail : Bool
  removeSrcFail : Bool
deriving DecidableEq

/-- Fault oracle under which every I/O call succeeds. -/
def noFaults : Faults :=
  ⟨false, false, false, false, none, false, false, false, false⟩

/-- Result record of moveFile, mirroring the object literals the source
returns (fileSize is only present on success). -/
structure MoveResult where
  success : Bool
  targetPath : Option String
  fileName : String
  fileSize : Option String
  error : Option String
deriving DecidableEq

/-- Content digest of calculateFileHash, modelled as an injective digest
(the identity on byte lists). -/
def md5 (c : List Nat) : List Nat := c

/-- Steps 4-8 of the asynchronous moveFile (src/cleaner.js lines
957-1033) once the source has been statted and read and the
collision-free target path has been chosen: hash the source, write the
copy, verify existence, then size, then digest, and only after both
checks pass remove the source.  Factored out of moveFile so that the
chosen target path appears as a parameter; every catch path of the
source is reproduced, and once this phase has begun any exception
removes the partially-written target before returning failure. -/
def moveFileTransferPhase (fs : FS) (flt : Faults) (filePath fileName : String)
    (content : List Nat) (uniqueTargetPath : String) : MoveResult × FS :=
  let fileSize := formatFileSize content.length
  if flt.hashSrcFail then
    (⟨false, none, fileName, none, some "hashSrc"⟩,
      if existsFS fs uniqueTargetPath then removeFS fs uniqueTargetPath else fs)
  else
    let sourceHash := md5 content
    if flt.writeFail then
      (⟨false, none, fileName, none, some "write"⟩,
        if existsFS fs uniqueTargetPath then removeFS fs uniqueTargetPath else fs)
    else
      let written := match flt.corrupt with
        | some c => c
        | none => content
      let fs1 := writeFS fs uniqueTargetPath written
      if ¬ existsFS fs1 uniqueTargetPath then
        (⟨false, none, fileName, none, some "target missing"⟩, fs1)
      else if flt.readTgtFail then
        (⟨false, none, fileName, none, some "readTgt"⟩,
          if existsFS fs1 uniqueTargetPath then removeFS fs1 uniqueTargetPath else fs1)
      else if flt.statTgtFail then
        (⟨false, none, fileName, none, some "statTgt"⟩,
          if existsFS fs1 uniqueTargetPath then removeFS fs1 uniqueTargetPath else fs1)
      else if content.length ≠ written.length then
        (⟨false, none, fileName, none, some "size mismatch"⟩, removeFS fs1 uniqueTargetPath)
      else if flt.hashTgtFail then
        (⟨false, none, fileName, none, some "hashTgt"⟩,
          if existsFS fs1 uniqueTargetPath then removeFS fs1 uniqueTargetPath else fs1)
      else if sourceHash ≠ md5 written then
        (⟨false, none, fileName, none, some "hash mismatch"⟩, removeFS fs1 uniqueTargetPath)
      else if flt.removeSrcFail then
        (⟨false, none, fileName, none, some "removeSrc"⟩,
          if existsFS fs1 uniqueTargetPath then removeFS fs1 uniqueTargetPath else fs1)
      else
        (⟨true, some uniqueTargetPath, fileName, some fileSize, none⟩, removeFS fs1 filePath)

/-- Embedding of the asynchronous moveFile (src/cleaner.js lines
896-1049): exists/stat/read the source, pick a collision-free target
path, then run the hash/copy/verify/delete transfer phase.  The baseDir
parameter is accepted and, exactly as in this variant of the source,
never used for the target path. -/
def moveFile (fs : FS) (flt : Faults) (filePath targetDir baseDir : String) : MoveResult × FS :=
  let fileName := jsBasename filePath
  match lookupFS fs filePath with
  | none => (⟨false, none, fileName, none, some "enoent"⟩, fs)
  | some content =>
    if flt.statFail then (⟨false, none, fileName, none, some "stat"⟩, fs)
    else if flt.readFail then (⟨false, none, fileName, none, some "read"⟩, fs)
    else
      moveFileTransferPhase fs flt filePath fileName content
        (getUniqueFileName fs targetDir fileName)

/-- Result record of deleteFile. -/
structure DeleteResult where
  success : Bool
  fileName : String
  fileSize : String
  error : Option String
deriving DecidableEq

/-- Embedding of deleteFile (src/cleaner.js lines 1056-1075): stat for
the statistics, then unconditional removal, with both calls fallible. -/
def deleteFile (statOk removeOk : Bool) (content : List Nat) (filePath : String) : DeleteResult :=
  let fileName := jsBasename filePath
  if ¬ statOk then ⟨false, fileName, "0 B", some "stat"⟩
  else if ¬ removeOk then ⟨false, fileName, "0 B", some "remove"⟩
  else ⟨true, fileName, formatFileSize content.length, none⟩

/-- Platform error classification consumed by the liveness probe. -/
inductive ErrCode where
  | EBUSY | EAGAIN | ETXTBSY | EMFILE | ENFILE | ESHUTDOWN | EPIPE
  | EACCES | EPERM | ENOENT | EUNKNOWN
deriving DecidableEq

/-- The switch statement shared by both probe variants: contention codes
and unknown codes classify as in-use, access/permission/absence codes as
not in use. -/
def classifyInUse : ErrCode → Bool
  | .EBUSY | .EAGAIN | .ETXTBSY | .EMFILE | .ENFILE | .ESHUTDOWN | .EPIPE => true
  | .EACCES | .EPERM | .ENOENT => false
  | .EUNKNOWN => true

/-- Outcomes of the up-to-three open attempts of a probe call: `none`
means the open succeeds, `some e` that it throws with code e. -/
structure ProbeEnv where
  openRead : Option ErrCode
  openReadWrite : Option ErrCode
  openWrite : Option ErrCode
deriving DecidableEq

/-- Embedding of isFileInUse of the synchronous variant (src/cleaner.js
lines 130-181).  Its third probe opens the file with mode 'w', which on
success truncates (or creates) the file: the returned file system
reflects that destructive open. -/
def isFileInUseV1 (fs : FS) (env : ProbeEnv) (filePath : String) : Bool × FS :=
  match env.openRead with
  | some e => (classifyInUse e, fs)
  | none =>
    match env.openReadWrite with
    | some e => (classifyInUse e, fs)
    | none =>
      match env.openWrite with
      | some e => (classifyInUse e, fs)
      | none => (false, writeFS fs filePath [])

/-- Embedding of isFileInUse of the asynchronous variant (src/cleaner.js
lines 795-845), where the mode-'w' open has been removed; only the
non-destructive 'r' and 'r+' opens remain. -/
def isFileInUseV2 (fs : FS) (env : ProbeEnv) (filePath : String) : Bool × FS :=
  match env.openRead with
  | some e => (classifyInUse e, fs)
  | none =>
    match env.openReadWrite with
    | some e => (classifyInUse e, fs)
    | none => (false, fs)

/-- Per-file oracle data consumed by one directory-walk visit: content
and timestamps, whether statSync succeeds, the probe verdict (the
asynchronous variant probe leaves the file system unchanged, so only its
boolean matters inside the walk), whether removeSync succeeds in
direct-delete mode, and the fault oracle for the moveFile call. -/
structure FileInfo where
  content : List Nat
  birth : Nat
  mtime : Nat
  statOk : Bool
  inUse : Bool
  removeOk : Bool
  faults : Faults

/-!
FsEntry/FsTree: snapshot of a directory tree as the walk's readdirSync
calls observe it.  A dir entry carries whether its own statSync call
succeeds.
-/

mutual
inductive FsEntry where
  | file : String → FileInfo → FsEntry
  | dir : String → Bool → FsTree → FsEntry
inductive FsTree where
  | nil : FsTree
  | cons : FsEntry → FsTree → FsTree
end

/-- The configuration singleton the cleanup module loads from
config.yaml, restricted to the fields the walk reads, plus the outcome
of ensureDirectory on the target directory. -/
structure Config where
  protectedFiles : List String
  allowedExtensions : List String
  targetDirectory : String
  ensureOk : Bool

/-- Transfer record pushed onto movedFileList. -/
structure MovedRecord where
  sourcePath : String
  targetPath : Option String
  fileName : String
  fileSize : Option String
deriving DecidableEq

/-- Statistics accumulator of cleanFolder. -/
structure WalkResult where
  totalFiles : Nat
  movedFiles : Nat
  skippedFiles : Nat
  movedFileList : List MovedRecord
deriving DecidableEq

/-- Zero-valued walk result. -/
def emptyWalk : WalkResult := ⟨0, 0, 0, []⟩

/-- Result of one entry that is counted and skipped. -/
def oneSkip : WalkResult := ⟨1, 0, 1, []⟩

/-- Accumulation of two walk results, as the loop and the
sub-folder-merge of the source accumulate counts and lists. -/
def addWalk (a b : WalkResult) : WalkResult :=
  ⟨a.totalFiles + b.totalFiles, a.movedFiles + b.movedFiles,
    a.skippedFiles + b.skippedFiles, a.movedFileList ++ b.movedFileList⟩

mutual

/-- Embedding of one iteration of the entry loop of the asynchronous
cleanFolder (src/cleaner.js lines 1106-1190), with curBase the
currentBaseDir of the enclosing call.  The guard order is the source's:
protected-name check first (before the entry is even statted, so it
also applies to directories), then stat, directory recursion, extension,
expiry, liveness, and finally dispatch to deleteFile or moveFile.  The
recursive call on a directory passes currentBaseDir through, which the
callee adopts unchanged as its own currentBaseDir.  The moveFile call
operates on a view of the file system in which the source file is
visible alongside the quarantine contents; the source entry is
projected back out of the returned state afterwards (on success it is
already gone). -/
def cleanEntry (cfg : Config) (now retentionDays : Nat) (forceDelete : Bool)
    (folderPath curBase : String) (e : FsEntry) (qfs : FS) : WalkResult × FS :=
  match e with
  | .dir name ok sub =>
    if isProtectedFile cfg.protectedFiles name then (oneSkip, qfs)
    else if ok then
      let rq := cleanTree cfg now retentionDays forceDelete (pathJoin folderPath name) curBase sub qfs
      (⟨1 + rq.1.totalFiles, rq.1.movedFiles, rq.1.skippedFiles, rq.1.movedFileList⟩, rq.2)
    else (oneSkip, qfs)
  | .file name info =>
    let filePath := pathJoin folderPath name
    if isProtectedFile cfg.protectedFiles name then (oneSkip, qfs)
    else if ¬ info.statOk then (oneSkip, qfs)
    else if ¬ isAllowedExtension cfg.allowedExtensions name then (oneSkip, qfs)
    else if ¬ isExpired (some (info.birth, info.mtime)) now retentionDays then (oneSkip, qfs)
    else if info.inUse then (oneSkip, qfs)
    else if forceDelete then
      let dr := deleteFile info.statOk info.removeOk info.content filePath
      if dr.success then
        (⟨1, 1, 0, [⟨filePath, none, dr.fileName, some dr.fileSize⟩]⟩, qfs)
      else (oneSkip, qfs)
    else if ¬ cfg.ensureOk then (oneSkip, qfs)
    else
      let mr := moveFile ((filePath, info.content) :: qfs) info.faults filePath cfg.targetDirectory curBase
      if mr.1.success then
        (⟨1, 1, 0, [⟨filePath, mr.1.targetPath, mr.1.fileName, mr.1.fileSize⟩]⟩, removeFS mr.2 filePath)
      else (oneSkip, removeFS mr.2 filePath)

/-- The entry loop of cleanFolder over the readdirSync snapshot,
threading the quarantine file system left to right and accumulating the
per-entry results. -/
def cleanTree (cfg : Config) (now retentionDays : Nat) (forceDelete : Bool)
    (folderPath curBase : String) (t : FsTree) (qfs : FS) : WalkResult × FS :=
  match t with
  | .nil => (emptyWalk, qfs)
  | .cons e rest =>
    let r1 := cleanEntry cfg now retentionDays forceDelete folderPath curBase e qfs
    let r2 := cleanTree cfg now retentionDays forceDelete folderPath curBase rest r1.2
    (addWalk r1.1 r2.1, r2.2)

end

/-- Embedding of the asynchronous cleanFolder (src/cleaner.js lines
1087-1204): currentBaseDir defaults to the folder itself when no
baseDir is given; the recursive calls of the source that pass a
non-null currentBaseDir are exactly the cleanTree calls above. -/
def cleanFolder (cfg : Config) (now retentionDays : Nat) (forceDelete : Bool)
    (folderPath : String) (baseDir : Option String) (t : FsTree) (qfs : FS) : WalkResult × FS :=
  let currentBaseDir := match baseDir with
    | some b => b
    | none => folderPath
  cleanTree cfg now retentionDays forceDelete folderPath currentBaseDir t qfs

/-- The critical-path denylist of the synchronous executeCleanup
(src/cleaner.js lines 564-568): it contains the user-profile root. -/
def criticalPathsV1 : List String :=
  ["c:\\", "c:\\windows", "c:\\system32", "c:\\program files",
   "c:\\program files (x86)", "c:\\users", "c:\\programdata", "d:\\", "e:\\"]

/-- The critical-path denylist of the asynchronous executeCleanup
(src/cleaner.js lines 1223-1227): the user-profile root entry is
absent. -/
def criticalPathsV2 : List String :=
  ["c:\\", "c:\\windows", "c:\\system32", "c:\\program files",
   "c:\\program files (x86)", "c:\\programdata", "d:\\", "e:\\"]

/-- Boolean prefix test on character lists (model of the JavaScript
String.prototype.startsWith). -/
def isPrefixChars : List Char → List Char → Bool
  | [], _ => true
  | _ :: _, [] => false
  | c :: cs, d :: ds => if c = d then isPrefixChars cs ds else false

/-- Model of a.startsWith(b) on strings. -/
def strStartsWith (s p : String) : Bool :=
  isPrefixChars p.data s.data

/-- The guard test of the inner loop of executeCleanup: the lowercased
folder equals a denylisted path, or extends one by a backslash
separator appended to the denylisted entry. -/
def folderHitsCritical (criticalPaths : List String) (folder : String) : Bool :=
  let folderLower := toLowerAscii folder
  criticalPaths.any (fun cp => folderLower == cp || strStartsWith folderLower (cp ++ "\\"))

/-- First configured folder that trips the guard, in configuration
order, mirroring the nested throw of the source. -/
def firstCriticalViolation (criticalPaths : List String) (folders : List String) : Option String :=
  folders.find? (folderHitsCritical criticalPaths)

/-- Final report of executeCleanup. -/
structure Report where
  totalFiles : Nat
  movedFiles : Nat
  skippedFiles : Nat
  movedFilesList : List MovedRecord
deriving DecidableEq

/-- The folder loop of executeCleanup, accumulating each cleanFolder
result (each root is walked with baseDir = null). -/
def executeLoop (cfg : Config) (now retentionDays : Nat) (forceDelete : Bool)
    (folders : List (String × FsTree)) (qfs : FS) : Report × FS :=
  match folders with
  | [] => (⟨0, 0, 0, []⟩, qfs)
  | (fp, t) :: rest =>
    let r := cleanFolder cfg now retentionDays forceDelete fp none t qfs
    let rr := executeLoop cfg now retentionDays forceDelete rest r.2
    (⟨r.1.totalFiles + rr.1.totalFiles, r.1.movedFiles + rr.1.movedFiles,
       r.1.skippedFiles + rr.1.skippedFiles, r.1.movedFileList ++ rr.1.movedFilesList⟩, rr.2)

/-- Embedding of the asynchronous executeCleanup (src/cleaner.js lines
1213-1276): when the wildcard extension is configured, every configured
folder is pre-checked against criticalPathsV2, and the first violation
aborts the run (Except.error carrying the offending folder) before any
folder is walked; otherwise the folders are walked sequentially.
Compression is absent from this variant. -/
def executeCleanup (cfg : Config) (now retentionDays : Nat) (forceDelete : Bool)
    (folders : List (String × FsTree)) (qfs : FS) : Except String Report × FS :=
  if cfg.allowedExtensions.contains "*" then
    match firstCriticalViolation criticalPathsV2 (folders.map Prod.fst) with
    | some folder => (Except.error folder, qfs)
    | none =>
      let r := executeLoop cfg now retentionDays forceDelete folders qfs
      (Except.ok r.1, r.2)
  else
    let r := executeLoop cfg now retentionDays forceDelete folders qfs
    (Except.ok r.1, r.2)

example : isFileInUseV1 [("a.txt", [1, 2, 3])] ⟨none, none, none⟩ "a.txt" = (false, [("a.txt", [])]) := by rfl

/-- Suffixed candidate path k of the collision loop for a given target
directory and file name. -/
def uniqueCandidate (targetDir fileName : String) (k : Nat) : String :=
  pathJoin targetDir (suffixedName (baseNameNoExt fileName) (jsExtname fileName) k)

/-- Quarantine root holding one file named report.txt already. -/
def demoQuarantine : FS := [("q/report.txt", [1])]

/-- Fault oracle whose write deposits corrupted bytes of the same
length, so that the digest comparison is what fails. -/
def corruptFaults : Faults :=
  ⟨false, false, false, false, some [9, 9], false, false, false, false⟩

/-- Source tree with one two-byte file. -/
def demoSourceFS : FS := [("a/r.txt", [1, 2])]

/-- Source tree for the directory-structure claim: a file nested two
levels below the walk root. -/
def c3SourceFS : FS := [("root/sub1/sub2/file.txt", [1, 2, 3])]

/-- Existing three-byte file for the probe claim. -/
def c4ProbeFS : FS := [("a.txt", [1, 2, 3])]

/-- Reading of the claim's own words, kept separate from the source
embedding: the case-sensitive substring after the final dot of the
name, when the name contains a dot at all. -/
def specAfterFinalDot (name : String) : Option String :=
  match lastDotIdx name.data with
  | none => none
  | some i => some (String.mk (name.data.drop (i + 1)))

/-- Names that path.extname treats as having an extension: some dot
exists, it is not the leading character, and the name is not "..". -/
def hasRealExt (name : String) : Bool :=
  match lastDotIdx name.data with
  | none => false
  | some i => if i = 0 ∨ name.data = ['.', '.'] then false else true

mutual

/-- Number of directory entries a walk over one entry descends into
(protected-named directories and directories whose stat fails are
skipped, not descended). -/
def dirsDescendedEntry (cfg : Config) : FsEntry → Nat
  | .file _ _ => 0
  | .dir name ok sub =>
    if isProtectedFile cfg.protectedFiles name then 0
    else if ok then 1 + dirsDescendedTree cfg sub
    else 0

/-- Number of directory entries a walk over a tree descends into. -/
def dirsDescendedTree (cfg : Config) : FsTree → Nat
  | .nil => 0
  | .cons e t => dirsDescendedEntry cfg e + dirsDescendedTree cfg t

end

/-- Configuration protecting the name desktop.ini, with wildcard
extensions and an always-creatable target directory. -/
def demoCfg : Config := ⟨["desktop.ini"], ["*"], "trash", true⟩

/-- A one-byte, long-expired, unlocked, fault-free file. -/
def demoFileInfo : FileInfo := ⟨[7], 0, 0, true, false, true, noFaults⟩

/-- One-entry subtree holding an eligible file. -/
def demoSubTree : FsTree := FsTree.cons (FsEntry.file "old.log" demoFileInfo) FsTree.nil

/-- Wildcard configuration with no protected names. -/
def wildcardCfg : Config := ⟨[], ["*"], "trash", true⟩

/-- One configured folder: the user-profile root, holding one eligible
file. -/
def userProfileFolders : List (String × FsTree) :=
  [("c:\\users", FsTree.cons (FsEntry.file "junk.txt" demoFileInfo) FsTree.nil)]

lemma filter_ne_of_lookup_none {fs : FS} {p : String} (h : lookupFS fs p = none) :
    fs.filter (fun e => e.1 != p) = fs := by
  induction fs with
  | nil => rfl
  | cons hd tl ih =>
    obtain ⟨q, c⟩ := hd
    by_cases hq : q = p
    · simp [lookupFS, hq] at h
    · simp only [lookupFS, if_neg hq] at h
      simp [List.filter_cons, bne_iff_ne, hq, ih h]

lemma lookupFS_filter_ne_self {fs : FS} {p : String} :
    lookupFS (fs.filter (fun e => e.1 != p)) p = none := by
  induction fs with
  | nil => rfl
  | cons hd tl ih =>
    obtain ⟨q, c⟩ := hd
    by_cases hq : q = p
    · simpa [List.filter_cons, bne_iff_ne, hq] using ih
    · simp [List.filter_cons, bne_iff_ne, hq, lookupFS, ih]

lemma lookupFS_filter_ne_other {fs : FS} {p r : String} (hr : r ≠ p) :
    lookupFS (fs.filter (fun e => e.1 != p)) r = lookupFS fs r := by
  induction fs with
  | nil => rfl
  | cons hd tl ih =>
    obtain ⟨q, c⟩ := hd
    by_cases hq : q = p
    · subst hq
      simp [List.filter_cons, lookupFS, Ne.symm hr, ih]
    · by_cases hqr : q = r
      · simp [List.filter_cons, bne_iff_ne, hq, lookupFS, hqr, hr]
      · simp [List.filter_cons, bne_iff_ne, hq, lookupFS, hqr, ih]

lemma removeFS_writeFS {fs : FS} {p : String} (c : List Nat) (h : lookupFS fs p = none) :
    removeFS (writeFS fs p c) p = fs := by
  unfold removeFS writeFS
  simp only [List.filter, bne_self_eq_false]
  rw [List.filter_filter]
  simp only [Bool.and_self]
  exact filter_ne_of_lookup_none h

lemma lookupFS_writeFS_self {fs : FS} {p : String} {c : List Nat} :
    lookupFS (writeFS fs p c) p = some c := by
  simp [writeFS, lookupFS]

lemma lookupFS_writeFS_other {fs : FS} {p r : String} {c : List Nat} (hr : r ≠ p) :
    lookupFS (writeFS fs p c) r = lookupFS fs r := by
  simp only [writeFS, lookupFS, if_neg (Ne.symm hr)]
  exact lookupFS_filter_ne_other hr

lemma lookupFS_removeFS_self {fs : FS} {p : String} :
    lookupFS (removeFS fs p) p = none :=
  lookupFS_filter_ne_self

lemma lookupFS_removeFS_other {fs : FS} {p r : String} (hr : r ≠ p) :
    lookupFS (removeFS fs p) r = lookupFS fs r :=
  lookupFS_filter_ne_other hr

lemma existsFS_writeFS_self {fs : FS} {p : String} {c : List Nat} :
    existsFS (writeFS fs p c) p = true := by
  simp [existsFS, lookupFS_writeFS_self]

lemma digitChar_toNat {d : Nat} (h : d < 10) : (digitChar d).toNat = 48 + d := by
  interval_cases d <;> rfl

lemma digitsVal_append_digit (cs : List Char) (c : Char) :
    digitsVal (cs ++ [c]) = digitsVal cs * 10 + (c.toNat - 48) := by
  simp [digitsVal, List.foldl_append]

lemma digitsVal_natDigitsAux : ∀ fuel n, n < 10 ^ fuel → digitsVal (natDigitsAux fuel n) = n := by
  intro fuel
  induction fuel with
  | zero =>
    intro n hn
    interval_cases n
    rfl
  | succ fuel ih =>
    intro n hn
    by_cases h : n < 10
    · simp [natDigitsAux, h, digitsVal, digitChar_toNat h]
    · have hdiv : n / 10 < 10 ^ fuel := by
        apply Nat.div_lt_of_lt_mul
        calc n < 10 ^ (fuel + 1) := hn
          _ = 10 * 10 ^ fuel := by ring
      simp only [natDigitsAux, if_neg h]
      rw [digitsVal_append_digit, ih _ hdiv, digitChar_toNat (Nat.mod_lt _ (by omega))]
      omega

lemma digitsVal_natDigits (n : Nat) : digitsVal (natDigits n) = n := by
  have hpow : n < 10 ^ (n + 1) :=
    calc n < 10 ^ n := Nat.lt_pow_self (by omega) n
      _ ≤ 10 ^ (n + 1) := Nat.pow_le_pow_right (by omega) (by omega)
  exact digitsVal_natDigitsAux (n + 1) n hpow

lemma natDigits_injective {m n : Nat} (h : natDigits m = natDigits n) : m = n := by
  have := congrArg digitsVal h
  rwa [digitsVal_natDigits, digitsVal_natDigits] at this

lemma string_data_inj {s t : String} (h : s.data = t.data) : s = t := by
  cases s
  cases t
  exact congrArg String.mk h

lemma natRepr_injective {m n : Nat} (h : natRepr m = natRepr n) : m = n := by
  apply natDigits_injective
  have := congrArg String.data h
  simpa [natRepr] using this

lemma suffixedName_injective {b e : String} {m n : Nat}
    (h : suffixedName b e m = suffixedName b e n) : m = n := by
  have hd := congrArg String.data h
  simp only [suffixedName, String.data_append] at hd
  have h2 : (natRepr m).data = (natRepr n).data := by
    simpa [List.append_assoc] using hd
  exact natRepr_injective (string_data_inj h2)

lemma pathJoin_right_injective {d : String} {s t : String}
    (h : pathJoin d s = pathJoin d t) : s = t := by
  have hd := congrArg String.data h
  simp only [pathJoin, String.data_append] at hd
  have h2 : s.data = t.data := by
    simpa [List.append_assoc] using hd
  exact string_data_inj h2

lemma existsFS_iff_mem_keys {fs : FS} {p : String} :
    existsFS fs p = true ↔ p ∈ fs.map Prod.fst := by
  induction fs with
  | nil => simp [existsFS, lookupFS]
  | cons hd tl ih =>
    obtain ⟨q, c⟩ := hd
    by_cases hq : q = p
    · simp [existsFS, lookupFS, hq]
    · simpa [existsFS, lookupFS, hq, Ne.symm hq] using ih

lemma exists_free_candidate (fs : FS) (d b e : String) :
    ∃ k, 1 ≤ k ∧ k ≤ fs.length + 1 ∧
      existsFS fs (pathJoin d (suffixedName b e k)) = false := by
  by_contra hcon
  push_neg at hcon
  have htaken : ∀ k, 1 ≤ k → k ≤ fs.length + 1 →
      existsFS fs (pathJoin d (suffixedName b e k)) = true := by
    intro k h1 h2
    have := hcon k h1 h2
    revert this
    cases existsFS fs (pathJoin d (suffixedName b e k)) <;> simp
  set L := (List.range' 1 (fs.length + 1)).map (fun k => pathJoin d (suffixedName b e k)) with hL
  have hnodup : L.Nodup := by
    apply List.Nodup.map
    · intro x y hxy
      exact suffixedName_injective (pathJoin_right_injective hxy)
    · exact List.nodup_range' 1 (fs.length + 1)
  have hsub : L ⊆ fs.map Prod.fst := by
    intro x hx
    rw [hL] at hx
    obtain ⟨k, hk, rfl⟩ := List.mem_map.mp hx
    rw [List.mem_range'_1] at hk
    exact existsFS_iff_mem_keys.mp (htaken k hk.1 (by omega))
  have hlen : L.length ≤ (fs.map Prod.fst).length :=
    calc L.length = L.toFinset.card := (List.toFinset_card_of_nodup hnodup).symm
      _ ≤ (fs.map Prod.fst).toFinset.card := Finset.card_le_card (by
          intro x hx
          simp only [List.mem_toFinset] at hx ⊢
          exact hsub hx)
      _ ≤ (fs.map Prod.fst).length := List.toFinset_card_le _
  rw [hL] at hlen
  simp at hlen

lemma findFreeSuffix_spec (fs : FS) (d b e : String) :
    ∀ fuel counter,
      (∃ j, counter ≤ j ∧ j < counter + fuel ∧
        existsFS fs (pathJoin d (suffixedName b e j)) = false) →
      ∃ k, counter ≤ k ∧
        findFreeSuffix fs d b e counter fuel = pathJoin d (suffixedName b e k) ∧
        existsFS fs (pathJoin d (suffixedName b e k)) = false ∧
        ∀ j, counter ≤ j → j < k → existsFS fs (pathJoin d (suffixedName b e j)) = true := by
  intro fuel
  induction fuel with
  | zero =>
    intro counter hex
    obtain ⟨j, hj1, hj2, _⟩ := hex
    omega
  | succ fuel ih =>
    intro counter hex
    by_cases h : existsFS fs (pathJoin d (suffixedName b e counter)) = true
    · have hex' : ∃ j, counter + 1 ≤ j ∧ j < counter + 1 + fuel ∧
          existsFS fs (pathJoin d (suffixedName b e j)) = false := by
        obtain ⟨j, hj1, hj2, hj3⟩ := hex
        refine ⟨j, ?_, by omega, hj3⟩
        rcases Nat.eq_or_lt_of_le hj1 with heq | hlt
        · rw [heq] at h
          rw [h] at hj3
          exact absurd hj3 (by simp)
        · omega
      obtain ⟨k, hk1, hk2, hk3, hk4⟩ := ih (counter + 1) hex'
      refine ⟨k, by omega, ?_, hk3, ?_⟩
      · simpa [findFreeSuffix, h] using hk2
      · intro j hj1 hj2
        rcases Nat.eq_or_lt_of_le hj1 with heq | hlt
        · rwa [← heq]
        · exact hk4 j (by omega) hj2
    · refine ⟨counter, le_refl _, ?_, ?_, ?_⟩
      · simp [findFreeSuffix, h]
      · revert h
        cases existsFS fs (pathJoin d (suffixedName b e counter)) <;> simp
      · intro j hj1 hj2
        omega

lemma getUniqueFileName_not_exists (fs : FS) (targetDir fileName : String) :
    existsFS fs (getUniqueFileName fs targetDir fileName) = false := by
  simp only [getUniqueFileName]
  by_cases h : existsFS fs (pathJoin targetDir fileName) = true
  · rw [if_neg (by simp [h])]
    obtain ⟨k, hk1, hk2, hk3⟩ :=
      exists_free_candidate fs targetDir (baseNameNoExt fileName) (jsExtname fileName)
    obtain ⟨k', _, heq, hfree, _⟩ :=
      findFreeSuffix_spec fs targetDir (baseNameNoExt fileName) (jsExtname fileName)
        (fs.length + 1) 1 ⟨k, hk1, by omega, hk3⟩
    rw [heq]
    exact hfree
  · rw [if_pos h]
    simpa using h

lemma lookupFS_getUnique_none (fs : FS) (targetDir fileName : String) :
    lookupFS fs (getUniqueFileName fs targetDir fileName) = none := by
  have h := getUniqueFileName_not_exists fs targetDir fileName
  revert h
  unfold existsFS
  cases lookupFS fs (getUniqueFileName fs targetDir fileName) <;> simp

/-- C8: getUniqueFileName returns a path at which no file currently
exists: the unmodified join of directory and name when that is free,
otherwise the suffixed candidate (base name, underscore, counter,
extension) with the least free counter, counting from 1; every smaller
counter is occupied.  Consequently a second file named report.txt
transferred into the same quarantine root lands at report_1.txt. -/
theorem getUniqueFileName_collision_free (fs : FS) (targetDir fileName : String) :
    existsFS fs (getUniqueFileName fs targetDir fileName) = false ∧
    (existsFS fs (pathJoin targetDir fileName) = false →
      getUniqueFileName fs targetDir fileName = pathJoin targetDir fileName) ∧
    (existsFS fs (pathJoin targetDir fileName) = true →
      ∃ k, 1 ≤ k ∧
        getUniqueFileName fs targetDir fileName = uniqueCandidate targetDir fileName k ∧
        existsFS fs (uniqueCandidate targetDir fileName k) = false ∧
        ∀ j, 1 ≤ j → j < k → existsFS fs (uniqueCandidate targetDir fileName j) = true) := by
  refine ⟨getUniqueFileName_not_exists fs targetDir fileName, ?_, ?_⟩
  · intro h
    simp only [getUniqueFileName]
    rw [if_pos (by simp [h])]
  · intro h
    simp only [getUniqueFileName]
    rw [if_neg (by simp [h])]
    obtain ⟨k, hk1, hk2, hk3⟩ :=
      exists_free_candidate fs targetDir (baseNameNoExt fileName) (jsExtname fileName)
    obtain ⟨k', hk'1, heq, hfree, hbelow⟩ :=
      findFreeSuffix_spec fs targetDir (baseNameNoExt fileName) (jsExtname fileName)
        (fs.length + 1) 1 ⟨k, hk1, by omega, hk3⟩
    exact ⟨k', hk'1, heq, hfree, hbelow⟩

theorem getUniqueFileName_collision_free_witness :
    existsFS demoQuarantine (getUniqueFileName demoQuarantine "q" "report.txt") = false ∧
    getUniqueFileName demoQuarantine "q" "report.txt" = "q/report_1.txt" :=
  ⟨(getUniqueFileName_collision_free demoQuarantine "q" "report.txt").1, by rfl⟩

lemma moveFileTransferPhase_failure (fs : FS) (flt : Faults)
    (filePath fileName : String) (content : List Nat) (utp : String)
    (hfree : lookupFS fs utp = none)
    (h : (moveFileTransferPhase fs flt filePath fileName content utp).1.success = false) :
    (moveFileTransferPhase fs flt filePath fileName content utp).2 = fs := by
  have hex : existsFS fs utp = false := by simp [existsFS, hfree]
  by_cases h1 : flt.hashSrcFail = true
  · simp [moveFileTransferPhase, h1, hex]
  by_cases h2 : flt.writeFail = true
  · simp [moveFileTransferPhase, h1, h2, hex]
  cases hc : flt.corrupt with
  | none =>
    have hex1 : existsFS (writeFS fs utp content) utp = true := by
      simp [existsFS, lookupFS_writeFS_self]
    have hrm : removeFS (writeFS fs utp content) utp = fs := removeFS_writeFS _ hfree
    by_cases h3 : flt.readTgtFail = true
    · simp [moveFileTransferPhase, h1, h2, hc, h3, hex1, hrm]
    by_cases h4 : flt.statTgtFail = true
    · simp [moveFileTransferPhase, h1, h2, hc, h3, h4, hex1, hrm]
    by_cases h6 : flt.hashTgtFail = true
    · simp [moveFileTransferPhase, h1, h2, hc, h3, h4, h6, hex1, hrm]
    by_cases h8 : flt.removeSrcFail = true
    · simp [moveFileTransferPhase, h1, h2, hc, h3, h4, h6, h8, hex1, hrm]
    · exfalso
      simp [moveFileTransferPhase, h1, h2, hc, h3, h4, h6, h8, hex1] at h
  | some c' =>
    have hex1 : existsFS (writeFS fs utp c') utp = true := by
      simp [existsFS, lookupFS_writeFS_self]
    have hrm : removeFS (writeFS fs utp c') utp = fs := removeFS_writeFS _ hfree
    by_cases h3 : flt.readTgtFail = true
    · simp [moveFileTransferPhase, h1, h2, hc, h3, hex1, hrm]
    by_cases h4 : flt.statTgtFail = true
    · simp [moveFileTransferPhase, h1, h2, hc, h3, h4, hex1, hrm]
    by_cases h5 : content.length = c'.length
    · by_cases h6 : flt.hashTgtFail = true
      · simp [moveFileTransferPhase, h1, h2, hc, h3, h4, h5, h6, hex1, hrm]
      by_cases h7 : content = c'
      · by_cases h8 : flt.removeSrcFail = true
        · simp [moveFileTransferPhase, h1, h2, hc, h3, h4, h5, h6, h7, h8, hex1, hrm]
        · exfalso
          simp [moveFileTransferPhase, h1, h2, hc, h3, h4, h5, h6, h7, h8, hex1] at h
      · simp [moveFileTransferPhase, md5, h1, h2, hc, h3, h4, h5, h6, h7, hex1, hrm]
    · simp [moveFileTransferPhase, h1, h2, hc, h3, h4, h5, hex1, hrm]

/-- C1: whenever the checksum-verifying moveFile returns failure - for
any fault pattern, covering every verification failure and every
exception of the copy/verify phase - the file system is exactly the one
the call started from: the source file is still present, unmodified, at
its original path, and no partially-written destination file remains.
The source is only ever deleted in the success branch, which sits
behind both the size comparison and the digest comparison. -/
theorem moveFile_failure_preserves_fs (fs : FS) (flt : Faults)
    (filePath targetDir baseDir : String)
    (h : (moveFile fs flt filePath targetDir baseDir).1.success = false) :
    (moveFile fs flt filePath targetDir baseDir).2 = fs := by
  cases hl : lookupFS fs filePath with
  | none => simp [moveFile, hl]
  | some content =>
    simp only [moveFile, hl] at h ⊢
    split_ifs at h ⊢
    · rfl
    · rfl
    · exact moveFileTransferPhase_failure _ _ _ _ _ _
        (lookupFS_getUnique_none fs targetDir (jsBasename filePath)) h

theorem moveFile_failure_preserves_fs_witness :
    (moveFile demoSourceFS corruptFaults "a/r.txt" "q" "a").1.success = false ∧
    (moveFile demoSourceFS corruptFaults "a/r.txt" "q" "a").2 = demoSourceFS :=
  ⟨by rfl, moveFile_failure_preserves_fs demoSourceFS corruptFaults "a/r.txt" "q" "a" (by rfl)⟩

lemma moveFileTransferPhase_success (fs : FS) (flt : Faults)
    (filePath fileName : String) (content : List Nat) (utp : String)
    (hfree : lookupFS fs utp = none)
    (h : (moveFileTransferPhase fs flt filePath fileName content utp).1.success = true) :
    (moveFileTransferPhase fs flt filePath fileName content utp).1.targetPath = some utp ∧
    (moveFileTransferPhase fs flt filePath fileName content utp).1.fileName = fileName ∧
    (moveFileTransferPhase fs flt filePath fileName content utp).1.fileSize =
      some (formatFileSize content.length) ∧
    (moveFileTransferPhase fs flt filePath fileName content utp).2 =
      removeFS (writeFS fs utp content) filePath := by
  have hex : existsFS fs utp = false := by simp [existsFS, hfree]
  by_cases h1 : flt.hashSrcFail = true
  · simp [moveFileTransferPhase, h1, hex] at h
  by_cases h2 : flt.writeFail = true
  · simp [moveFileTransferPhase, h1, h2, hex] at h
  cases hc : flt.corrupt with
  | none =>
    have hex1 : existsFS (writeFS fs utp content) utp = true := by
      simp [existsFS, lookupFS_writeFS_self]
    by_cases h3 : flt.readTgtFail = true
    · simp [moveFileTransferPhase, h1, h2, hc, h3, hex1] at h
    by_cases h4 : flt.statTgtFail = true
    · simp [moveFileTransferPhase, h1, h2, hc, h3, h4, hex1] at h
    by_cases h6 : flt.hashTgtFail = true
    · simp [moveFileTransferPhase, h1, h2, hc, h3, h4, h6, hex1] at h
    by_cases h8 : flt.removeSrcFail = true
    · simp [moveFileTransferPhase, h1, h2, hc, h3, h4, h6, h8, hex1] at h
    · simp [moveFileTransferPhase, h1, h2, hc, h3, h4, h6, h8, hex1]
  | some c' =>
    have hex1 : existsFS (writeFS fs utp c') utp = true := by
      simp [existsFS, lookupFS_writeFS_self]
    by_cases h3 : flt.readTgtFail = true
    · simp [moveFileTransferPhase, h1, h2, hc, h3, hex1] at h
    by_cases h4 : flt.statTgtFail = true
    · simp [moveFileTransferPhase, h1, h2, hc, h3, h4, hex1] at h
    by_cases h5 : content.length = c'.length
    · by_cases h6 : flt.hashTgtFail = true
      · simp [moveFileTransferPhase, h1, h2, hc, h3, h4, h5, h6, hex1] at h
      by_cases h7 : content = c'
      · by_cases h8 : flt.removeSrcFail = true
        · simp [moveFileTransferPhase, h1, h2, hc, h3, h4, h5, h6, h7, h8, hex1] at h
        · subst h7
          simp [moveFileTransferPhase, h1, h2, hc, h3, h4, h5, h6, h8, hex1]
      · simp [moveFileTransferPhase, md5, h1, h2, hc, h3, h4, h5, h6, h7, hex1] at h
    · simp [moveFileTransferPhase, h1, h2, hc, h3, h4, h5, hex1] at h

/-- C2: a successful checksum-verifying moveFile leaves the destination
holding exactly the source's original bytes, removes the source entry
from the file system, and returns success together with the destination
path, the base file name and the human-formatted size of the source. -/
theorem moveFile_success_roundtrip (fs : FS) (flt : Faults)
    (filePath targetDir baseDir : String) (content : List Nat)
    (hsrc : lookupFS fs filePath = some content)
    (h : (moveFile fs flt filePath targetDir baseDir).1.success = true) :
    ∃ tp,
      (moveFile fs flt filePath targetDir baseDir).1.targetPath = some tp ∧
      lookupFS (moveFile fs flt filePath targetDir baseDir).2 tp = some content ∧
      lookupFS (moveFile fs flt filePath targetDir baseDir).2 filePath = none ∧
      (moveFile fs flt filePath targetDir baseDir).1.fileName = jsBasename filePath ∧
      (moveFile fs flt filePath targetDir baseDir).1.fileSize =
        some (formatFileSize content.length) := by
  simp only [moveFile, hsrc] at h ⊢
  by_cases h1 : flt.statFail = true
  · rw [if_pos h1] at h
    simp at h
  rw [if_neg h1] at h ⊢
  by_cases h2 : flt.readFail = true
  · rw [if_pos h2] at h
    simp at h
  rw [if_neg h2] at h ⊢
  have hfree := lookupFS_getUnique_none fs targetDir (jsBasename filePath)
  obtain ⟨htp, hfn, hsz, hfs⟩ := moveFileTransferPhase_success _ _ _ _ _ _ hfree h
  refine ⟨getUniqueFileName fs targetDir (jsBasename filePath), htp, ?_, ?_, hfn, hsz⟩
  · rw [hfs]
    have hne : getUniqueFileName fs targetDir (jsBasename filePath) ≠ filePath := by
      intro he
      rw [he] at hfree
      rw [hfree] at hsrc
      exact Option.noConfusion hsrc
    rw [lookupFS_removeFS_other hne, lookupFS_writeFS_self]
  · rw [hfs]
    exact lookupFS_removeFS_self

theorem moveFile_success_roundtrip_witness :
    ∃ tp,
      (moveFile demoSourceFS noFaults "a/r.txt" "q" "a").1.targetPath = some tp ∧
      lookupFS (moveFile demoSourceFS noFaults "a/r.txt" "q" "a").2 tp = some [1, 2] ∧
      lookupFS (moveFile demoSourceFS noFaults "a/r.txt" "q" "a").2 "a/r.txt" = none ∧
      (moveFile demoSourceFS noFaults "a/r.txt" "q" "a").1.fileName = jsBasename "a/r.txt" ∧
      (moveFile demoSourceFS noFaults "a/r.txt" "q" "a").1.fileSize =
        some (formatFileSize (2 : Nat)) :=
  moveFile_success_roundtrip demoSourceFS noFaults "a/r.txt" "q" "a" [1, 2] (by rfl) (by rfl)

/-- C3 (code bug): the checksum-verifying moveFile receives
baseDir = root yet lands the file at quark/file.txt - the relative path
sub1/sub2 is discarded, although the function's own documentation and
its caller promise that the directory structure below baseDir is
preserved, which would be quark/sub1/sub2/file.txt. -/
theorem moveFile_flattens_despite_baseDir :
    (moveFile c3SourceFS noFaults "root/sub1/sub2/file.txt" "quark" "root").1.success = true ∧
    (moveFile c3SourceFS noFaults "root/sub1/sub2/file.txt" "quark" "root").1.targetPath =
      some "quark/file.txt" ∧
    "quark/file.txt" ≠ "quark/sub1/sub2/file.txt" :=
  ⟨by rfl, by rfl, by decide⟩

/-- C4 (code bug): on a file that no other process holds (all probe
opens succeed), the synchronous-variant probe classifies the file as
not in use and, through its mode-'w' open, truncates it to zero bytes -
probing alone mutates the file.  The asynchronous variant, which
dropped the mode-'w' open, leaves the file system untouched. -/
theorem probe_truncates_file :
    isFileInUseV1 c4ProbeFS ⟨none, none, none⟩ "a.txt" = (false, [("a.txt", [])]) ∧
    (isFileInUseV2 c4ProbeFS ⟨none, none, none⟩ "a.txt").2 = c4ProbeFS :=
  ⟨by rfl, by rfl⟩

/-- C6 (counterexample): with retentionDays = 0 and unreadable file
metadata, isExpired returns false.  The stat call precedes the
retentionDays == 0 short-circuit, so the claim's "true whenever
retentionDays is 0" fails on a file whose metadata cannot be read. -/
theorem isExpired_zero_retention_statfail : isExpired none 5 0 = false := by rfl

/-- C6 (amended): isExpired is true iff the metadata is readable and
either retentionDays is 0 or the age measured from the newer of the
creation and modification timestamps strictly exceeds
retentionDays * 86400000 ms (exactly at the boundary is not expired);
whenever the metadata cannot be read the result is false, even at
retentionDays = 0. -/
theorem isExpired_characterization (stat : Option (Nat × Nat)) (now retentionDays : Nat) :
    isExpired stat now retentionDays = true ↔
      ∃ b m, stat = some (b, m) ∧
        (retentionDays = 0 ∨
          (now : Int) - ((max b m : Nat) : Int) > (retentionDays : Int) * 86400000) := by
  cases stat with
  | none => simp [isExpired]
  | some bm =>
    obtain ⟨b, m⟩ := bm
    have h86 : ((24 : Int) * 60 * 60 * 1000) = 86400000 := by norm_num
    by_cases hrd : retentionDays = 0
    · simp [isExpired, hrd]
    · simp only [isExpired, if_neg hrd, decide_eq_true_eq, h86]
      constructor
      · intro hgt
        exact ⟨b, m, rfl, Or.inr hgt⟩
      · rintro ⟨b', m', heq, hor⟩
        simp only [Option.some.injEq, Prod.mk.injEq] at heq
        obtain ⟨rfl, rfl⟩ := heq
        rcases hor with h0 | hgt
        · exact absurd h0 hrd
        · exact hgt

/-- C7 (counterexample): for the dotfile .bashrc the substring after
the final dot is bashrc, yet with allow-list [bashrc] (and no
wildcard) isAllowedExtension returns false, because path.extname treats
a name whose only dot is the leading one as having no extension. -/
theorem isAllowedExtension_dotfile :
    isAllowedExtension ["bashrc"] ".bashrc" = false ∧
    specAfterFinalDot ".bashrc" = some "bashrc" :=
  ⟨by rfl, by rfl⟩

/-- C7 (amended): isAllowedExtension is true iff the wildcard is
listed, or the name has an extension in the path.extname sense (a dot
that is neither leading-and-only nor part of "..") and the substring
after the final dot is listed, or the name has no extension in that
sense and the empty string is listed.  Dotfiles such as .bashrc and the
name ".." fall in the no-extension case. -/
theorem isAllowedExtension_characterization (allowed : List String) (name : String) :
    isAllowedExtension allowed name = true ↔
      "*" ∈ allowed ∨
      (hasRealExt name = true ∧ ∃ e, specAfterFinalDot name = some e ∧ e ∈ allowed) ∨
      (hasRealExt name = false ∧ "" ∈ allowed) := by
  have hemp : String.mk ([] : List Char) = "" := rfl
  cases hld : lastDotIdx name.data with
  | none =>
    simp only [isAllowedExtension, extSlice1, extnameChars, hasRealExt, specAfterFinalDot, hld,
      List.drop_nil, hemp]
    by_cases hw : allowed.contains "*" = true
    · simp only [if_pos hw]
      simp at hw
      simp [hw]
    · simp only [if_neg hw]
      simp at hw
      simp [hw]
  | some i =>
    by_cases hspec : i = 0 ∨ name.data = ['.', '.']
    · simp only [isAllowedExtension, extSlice1, extnameChars, hasRealExt, hld, if_pos hspec,
        List.drop_nil, hemp]
      by_cases hw : allowed.contains "*" = true
      · simp only [if_pos hw]
        simp at hw
        simp [hw]
      · simp only [if_neg hw]
        simp at hw
        simp [hw]
    · simp only [isAllowedExtension, extSlice1, extnameChars, hasRealExt, specAfterFinalDot, hld,
        if_neg hspec, List.drop_drop]
      by_cases hw : allowed.contains "*" = true
      · simp only [if_pos hw]
        simp at hw
        simp [hw]
      · simp only [if_neg hw]
        simp at hw
        simp [hw]

mutual

theorem cleanEntry_conservation (cfg : Config) (now retentionDays : Nat) (forceDelete : Bool)
    (folderPath curBase : String) (e : FsEntry) (qfs : FS) :
    (cleanEntry cfg now retentionDays forceDelete folderPath curBase e qfs).1.totalFiles =
      (cleanEntry cfg now retentionDays forceDelete folderPath curBase e qfs).1.movedFiles +
      (cleanEntry cfg now retentionDays forceDelete folderPath curBase e qfs).1.skippedFiles +
      dirsDescendedEntry cfg e ∧
    (cleanEntry cfg now retentionDays forceDelete folderPath curBase e qfs).1.movedFileList.length =
      (cleanEntry cfg now retentionDays forceDelete folderPath curBase e qfs).1.movedFiles := by
  cases e with
  | file name info =>
    simp only [cleanEntry, dirsDescendedEntry]
    split_ifs <;> simp [oneSkip]
  | dir name ok sub =>
    simp only [cleanEntry, dirsDescendedEntry]
    by_cases hp : isProtectedFile cfg.protectedFiles name = true
    · simp [hp, oneSkip]
    by_cases hok : ok = true
    · simp only [if_neg hp, if_pos hok]
      obtain ⟨ht1, ht2⟩ := cleanTree_conservation cfg now retentionDays forceDelete
        (pathJoin folderPath name) curBase sub qfs
      refine ⟨?_, ?_⟩ <;> (try simp) <;> omega
    · simp [hp, hok, oneSkip]

theorem cleanTree_conservation (cfg : Config) (now retentionDays : Nat) (forceDelete : Bool)
    (folderPath curBase : String) (t : FsTree) (qfs : FS) :
    (cleanTree cfg now retentionDays forceDelete folderPath curBase t qfs).1.totalFiles =
      (cleanTree cfg now retentionDays forceDelete folderPath curBase t qfs).1.movedFiles +
      (cleanTree cfg now retentionDays forceDelete folderPath curBase t qfs).1.skippedFiles +
      dirsDescendedTree cfg t ∧
    (cleanTree cfg now retentionDays forceDelete folderPath curBase t qfs).1.movedFileList.length =
      (cleanTree cfg now retentionDays forceDelete folderPath curBase t qfs).1.movedFiles := by
  cases t with
  | nil => simp [cleanTree, dirsDescendedTree, emptyWalk]
  | cons e rest =>
    have h1 := cleanEntry_conservation cfg now retentionDays forceDelete folderPath curBase e qfs
    have h2 := cleanTree_conservation cfg now retentionDays forceDelete folderPath curBase rest
      (cleanEntry cfg now retentionDays forceDelete folderPath curBase e qfs).2
    simp only [cleanTree, dirsDescendedTree, addWalk]
    constructor
    · omega
    · simp only [List.length_append]
      omega

end

/-- C10: conservation invariant of the walk: for every configuration,
tree and quarantine state, the returned totalFiles equals movedFiles
plus skippedFiles plus the number of directory entries descended into,
and the transfer-record list has exactly movedFiles entries - so every
non-directory entry (and every skipped directory) contributes exactly
one to movedFiles or skippedFiles. -/
theorem cleanFolder_conservation (cfg : Config) (now retentionDays : Nat) (forceDelete : Bool)
    (folderPath : String) (baseDir : Option String) (t : FsTree) (qfs : FS) :
    (cleanFolder cfg now retentionDays forceDelete folderPath baseDir t qfs).1.totalFiles =
      (cleanFolder cfg now retentionDays forceDelete folderPath baseDir t qfs).1.movedFiles +
      (cleanFolder cfg now retentionDays forceDelete folderPath baseDir t qfs).1.skippedFiles +
      dirsDescendedTree cfg t ∧
    (cleanFolder cfg now retentionDays forceDelete folderPath baseDir t
        qfs).1.movedFileList.length =
      (cleanFolder cfg now retentionDays forceDelete folderPath baseDir t qfs).1.movedFiles := by
  simp only [cleanFolder]
  exact cleanTree_conservation cfg now retentionDays forceDelete folderPath _ t qfs

/-- C9 (amended): dispatch of a directory entry during the walk.  A
directory whose name is on the protected list is counted
inspected-and-skipped without being entered - the protected-name check
runs before the entry is statted, so it does apply to directories.  Any
other directory whose stat succeeds is descended into by a cleanFolder
call that receives the enclosing walk's currentBaseDir (the same
baseDir carried through), and the sub-result's counts and transfer
records are merged into the accumulator.  Both equations hold for every
allow-list and every retention value: the extension and expiry
predicates are never consulted for a directory. -/
theorem cleanFolder_dir_dispatch (cfg : Config) (now retentionDays : Nat) (forceDelete : Bool)
    (folderPath curBase name : String) (ok : Bool) (sub : FsTree) (qfs : FS) :
    (isProtectedFile cfg.protectedFiles name = true →
      cleanEntry cfg now retentionDays forceDelete folderPath curBase
        (FsEntry.dir name ok sub) qfs = (oneSkip, qfs)) ∧
    (isProtectedFile cfg.protectedFiles name = false → ok = true →
      cleanEntry cfg now retentionDays forceDelete folderPath curBase
        (FsEntry.dir name ok sub) qfs =
        ((⟨1 + (cleanFolder cfg now retentionDays forceDelete (pathJoin folderPath name)
              (some curBase) sub qfs).1.totalFiles,
           (cleanFolder cfg now retentionDays forceDelete (pathJoin folderPath name)
              (some curBase) sub qfs).1.movedFiles,
           (cleanFolder cfg now retentionDays forceDelete (pathJoin folderPath name)
              (some curBase) sub qfs).1.skippedFiles,
           (cleanFolder cfg now retentionDays forceDelete (pathJoin folderPath name)
              (some curBase) sub qfs).1.movedFileList⟩ : WalkResult),
         (cleanFolder cfg now retentionDays forceDelete (pathJoin folderPath name)
            (some curBase) sub qfs).2)) := by
  constructor
  · intro hp
    simp [cleanEntry, hp]
  · intro hp hok
    subst hok
    simp [cleanEntry, hp, cleanFolder]

theorem cleanFolder_dir_dispatch_witness :
    isProtectedFile demoCfg.protectedFiles "docs" = false ∧
    cleanEntry demoCfg 1000 0 false "root" "root" (FsEntry.dir "docs" true demoSubTree) [] =
      ((⟨1 + (cleanFolder demoCfg 1000 0 false (pathJoin "root" "docs")
            (some "root") demoSubTree []).1.totalFiles,
         (cleanFolder demoCfg 1000 0 false (pathJoin "root" "docs")
            (some "root") demoSubTree []).1.movedFiles,
         (cleanFolder demoCfg 1000 0 false (pathJoin "root" "docs")
            (some "root") demoSubTree []).1.skippedFiles,
         (cleanFolder demoCfg 1000 0 false (pathJoin "root" "docs")
            (some "root") demoSubTree []).1.movedFileList⟩ : WalkResult),
       (cleanFolder demoCfg 1000 0 false (pathJoin "root" "docs")
          (some "root") demoSubTree []).2) :=
  ⟨by rfl,
    (cleanFolder_dir_dispatch demoCfg 1000 0 false "root" "root" "docs" true demoSubTree []).2
      (by rfl) rfl⟩

/-- C9 (counterexample): a directory named desktop.ini, protected by
name, is not descended into: the walk reports one inspected and one
skipped entry and never reaches the eligible file inside, whereas the
same tree under a non-protected directory name is descended and the
inner file is transferred.  The claim's "a directory whose name appears
in the protected-name list is still descended into" is false on the
code. -/
theorem cleanFolder_protected_dir_skipped :
    (cleanFolder demoCfg 1000 0 false "root" none
      (FsTree.cons (FsEntry.dir "desktop.ini" true demoSubTree) FsTree.nil) []).1 =
      ⟨1, 0, 1, []⟩ ∧
    (cleanFolder demoCfg 1000 0 false "root" none
      (FsTree.cons (FsEntry.dir "docs" true demoSubTree) FsTree.nil) []).1 =
      ⟨2, 1, 0, [⟨"root/docs/old.log", some "trash/old.log", "old.log", some "1 B"⟩]⟩ :=
  ⟨by rfl, by rfl⟩

/-- C5 (counterexample): with the wildcard allow-list and the
user-profile root c:\users configured, the asynchronous executeCleanup
does not raise a configuration error - its denylist omits c:\users -
and it proceeds to move a file out of that folder (one file operation
is performed and the quarantine state changes).  The claim's denylist
"platform root, OS installation directories, user-profile root, other
drive roots" therefore does not hold of this variant. -/
theorem executeCleanup_misses_user_profile_root :
    (executeCleanup wildcardCfg 1000 0 false userProfileFolders []).1 =
      Except.ok ⟨1, 1, 0, [⟨"c:\\users/junk.txt", some "trash/junk.txt", "junk.txt",
        some "1 B"⟩]⟩ ∧
    (executeCleanup wildcardCfg 1000 0 false userProfileFolders []).2 =
      [("trash/junk.txt", [7])] :=
  ⟨by rfl, by rfl⟩

/-- C5 (amended): with the wildcard allow-list configured, the
asynchronous executeCleanup aborts with a fatal configuration error iff
some configured folder trips the guard test against its denylist
criticalPathsV2 (which omits the user-profile root): the lowercased
folder equals a denylisted entry or extends one by an appended
backslash - so folders strictly below a bare drive root such as c:\foo
are not caught by the root entry, which already ends in a backslash.
When it aborts, the offending folder is one of the configured folders,
the guard test holds of it, and the file-system state is returned
untouched: the error precedes any file operation on any folder. -/
theorem executeCleanup_wildcard_guard (cfg : Config) (now retentionDays : Nat)
    (forceDelete : Bool) (folders : List (String × FsTree)) (qfs : FS)
    (hw : cfg.allowedExtensions.contains "*" = true) :
    ((∃ f ∈ folders.map Prod.fst, folderHitsCritical criticalPathsV2 f = true) ↔
      ∃ e, (executeCleanup cfg now retentionDays forceDelete folders qfs).1 =
        Except.error e) ∧
    (∀ e, (executeCleanup cfg now retentionDays forceDelete folders qfs).1 = Except.error e →
      e ∈ folders.map Prod.fst ∧ folderHitsCritical criticalPathsV2 e = true ∧
      (executeCleanup cfg now retentionDays forceDelete folders qfs).2 = qfs) := by
  simp only [executeCleanup, hw, if_true]
  cases hv : firstCriticalViolation criticalPathsV2 (folders.map Prod.fst) with
  | some folder =>
    have hmem : folder ∈ folders.map Prod.fst := List.mem_of_find?_eq_some hv
    have hpred : folderHitsCritical criticalPathsV2 folder = true := List.find?_some hv
    constructor
    · constructor
      · intro _
        exact ⟨folder, rfl⟩
      · intro _
        exact ⟨folder, hmem, hpred⟩
    · intro e he
      simp only [Except.error.injEq] at he
      subst he
      exact ⟨hmem, hpred, rfl⟩
  | none =>
    have hnone : ∀ f ∈ folders.map Prod.fst, ¬ folderHitsCritical criticalPathsV2 f = true :=
      List.find?_eq_none.mp hv
    constructor
    · constructor
      · rintro ⟨f, hmem, hpred⟩
        exact absurd hpred (hnone f hmem)
      · rintro ⟨e, he⟩
        exact Except.noConfusion he
    · intro e he
      exact Except.noConfusion he

theorem executeCleanup_wildcard_guard_witness :
    ∃ e, (executeCleanup wildcardCfg 0 0 false [("c:\\windows", FsTree.nil)] []).1 =
      Except.error e :=
  (executeCleanup_wildcard_guard wildcardCfg 0 0 false [("c:\\windows", FsTree.nil)] []
      (by rfl)).1.mp ⟨"c:\\windows", by simp, by rfl⟩
